import Mathlib

/-
Verification development for the zap-back-end repository.

Shallow embedding of the message scheduling, dispatch, recurrence,
webhook ingestion, ACK correlation and confirmation matching logic,
translated from src/unnamed/part_007 (CronService) and
src/unnamed/part_011 (WebhookController).
-/

namespace Zap

/-- Message status enum from the Prisma schema, as used by
cron.ts and webhook.ts. -/
inductive MessageStatus where
  | PENDING
  | SCHEDULED
  | SENT
  | DELIVERED
  | READ
  | FAILED
  deriving DecidableEq, Repr

/-- Recurrence enum from the Prisma schema. -/
inductive RecurrenceType where
  | NONE
  | MONTHLY
  deriving DecidableEq, Repr

/-- Confirmation status enum from the Prisma schema. -/
inductive ConfirmationStatus where
  | PENDING
  | CONFIRMED
  | DENIED
  deriving DecidableEq, Repr

/-- Rank of a status along the delivery order
Pending/Scheduled (0) to Sent (1) to Delivered (2) to Read (3).
FAILED is the sideways branch and gets rank 0. -/
def statusRank : MessageStatus → Nat
  | .PENDING => 0
  | .SCHEDULED => 0
  | .SENT => 1
  | .DELIVERED => 2
  | .READ => 3
  | .FAILED => 0

/-- Calendar date with JavaScript Date conventions: month is 0-based
(0 = January .. 11 = December), day is 1-based. -/
structure DateYMD where
  year : Int
  month : Nat
  day : Nat
  deriving DecidableEq, Repr

/-- Gregorian leap year test. -/
def isLeap (y : Int) : Bool :=
  (y % 4 == 0 && y % 100 != 0) || (y % 400 == 0)

/-- Number of days of a (0-based) month. -/
def daysInMonth (y : Int) (m : Nat) : Nat :=
  if m = 0 then 31
  else if m = 1 then (if isLeap y then 29 else 28)
  else if m = 2 then 31
  else if m = 3 then 30
  else if m = 4 then 31
  else if m = 5 then 30
  else if m = 6 then 31
  else if m = 7 then 31
  else if m = 8 then 30
  else if m = 9 then 31
  else if m = 10 then 30
  else 31

/-- Day-overflow normalization performed by the JavaScript Date
constructor: a day past the end of the month rolls into the following
month (for the day ranges reachable here a single carry suffices,
since every month has at least 28 days and a stored day is at most 31). -/
def normDay (y : Int) (m d : Nat) : DateYMD :=
  let dim := daysInMonth y m
  if d ≤ dim then ⟨y, m, d⟩
  else if m + 1 ≤ 11 then ⟨y, m + 1, d - dim⟩
  else ⟨y + 1, 0, d - dim⟩

/-- Embedding of nextMonth.setMonth(nextMonth.getMonth() + 1) in
cron.ts: advance the month index by one (rolling into the next year
after December) and let the Date normalization handle day overflow. -/
def addOneMonthJS (d : DateYMD) : DateYMD :=
  if d.month + 1 ≤ 11 then normDay d.year (d.month + 1) d.day
  else normDay (d.year + 1) 0 d.day

/-- The year the setMonth call lands in, before day normalization. -/
def nextYearOf (d : DateYMD) : Int :=
  if d.month + 1 ≤ 11 then d.year else d.year + 1

/-- The month index the setMonth call lands in, before day normalization. -/
def nextMonthOf (d : DateYMD) : Nat :=
  if d.month + 1 ≤ 11 then d.month + 1 else 0

/-- Message row, with the fields the scheduler and the webhook code
read and write. Timestamps other than scheduledAt are abstract
instants (Nat). -/
structure Message where
  id : String
  content : String
  status : MessageStatus
  scheduledAt : Option DateYMD
  sentAt : Option Nat
  deliveredAt : Option Nat
  readAt : Option Nat
  externalId : Option String
  recurrenceType : RecurrenceType
  originalMessageId : Option String
  isRecurringClone : Bool
  userId : String
  contactId : String
  deriving DecidableEq, Repr

/-- Confirmation row, with the fields the webhook code reads and
writes. The store list is kept in the order returned by the
findMany query (createdAt descending). -/
structure Confirmation where
  id : String
  contactName : String
  contactPhone : String
  status : ConfirmationStatus
  response : Option String
  respondedAt : Option Nat
  userId : String
  deriving DecidableEq, Repr

/- ---------------- string helpers (JavaScript string operations) ---- -/

/-- Embedding of the JavaScript String.prototype.split on a single
separator character: splits a character list into the list of
segments between separator occurrences (adjacent separators yield
empty segments, like in JavaScript). -/
def splitAtChar (sep : Char) : List Char → List (List Char)
  | [] => [[]]
  | c :: cs =>
    let rest := splitAtChar sep cs
    if c = sep then [] :: rest
    else
      match rest with
      | [] => [[c]]
      | r :: rs => (c :: r) :: rs

/-- Embedding of rawMessageId.includes(sep) followed by
split(sep).pop() from handleMessageAck in webhook.ts: when the raw id
contains the separator, take the final segment; otherwise keep the
raw id. -/
def extractAckId (raw : String) : String :=
  if raw.toList.contains '_' then ⟨(splitAtChar '_' raw.toList).getLastD []⟩
  else raw

/-- Embedding of the JavaScript word-character class used by the
regular expressions in webhook.ts: ASCII letters, digits and
underscore. -/
def isWordChar (c : Char) : Bool :=
  (97 ≤ c.toNat && c.toNat ≤ 122) ||
  (65 ≤ c.toNat && c.toNat ≤ 90) ||
  (48 ≤ c.toNat && c.toNat ≤ 57) ||
  c.toNat = 95

/-- Search for a whole-word occurrence of w in the remaining text t,
where prev is the character just before t (none at the start of the
text). An occurrence counts when the characters adjacent to it are
not word characters, which is the boundary semantics of the keyword
regular expressions in webhook.ts (every keyword starts and ends with
a word character). -/
def wholeWordSearch (w : List Char) (prev : Option Char) (t : List Char) : Bool :=
  (w.isPrefixOf t &&
    (match prev with
     | none => true
     | some c => !isWordChar c) &&
    (match t.drop w.length with
     | [] => true
     | c :: _ => !isWordChar c)) ||
  (match t with
   | [] => false
   | c :: rest => wholeWordSearch w (some c) rest)

/-- Whole-word test of keyword w against text t, the embedding of
new RegExp of backslash-b w backslash-b tested against the text. -/
def wholeWordMatch (w t : String) : Bool :=
  wholeWordSearch w.toList none t.toList

/-- Embedding of s.replace with the non-digit class and empty
replacement: keep only the decimal digit characters. -/
def stripNonDigits (s : String) : String :=
  ⟨s.toList.filter fun c => c.isDigit⟩

/-- Embedding of p.startsWith(q). -/
def strStartsWith (s q : String) : Bool :=
  q.toList.isPrefixOf s.toList

/-- Embedding of p.endsWith(q). -/
def strEndsWith (s q : String) : Bool :=
  q.toList.isSuffixOf s.toList

/-- Embedding of s.slice(-n): the last n characters, or the whole
string when it is shorter than n. -/
def takeRightS (n : Nat) (s : String) : String :=
  ⟨s.toList.drop (s.toList.length - n)⟩

/-- Embedding of s.replace of a leading 55 with the empty string
(the regular expression is anchored at the start). -/
def stripDDI (s : String) : String :=
  if strStartsWith s "55" then ⟨s.toList.drop 2⟩ else s

/-- Country-code step of the phone normalization in handleMessage:
when the digits-only number has at least 10 digits and does not
already start with 55, prefix the Brazilian country code 55. -/
def addCountryCode (p : String) : String :=
  if 10 ≤ p.length && !(strStartsWith p "55") then "55" ++ p else p

/-- Phone normalization pipeline of handleMessage in webhook.ts:
strip every non-digit character, then apply the country-code step. -/
def normalizePhone (s : String) : String :=
  addCountryCode (stripNonDigits s)

/-- JavaScript whitespace test restricted to the ASCII whitespace
characters, for the embedding of trim. -/
def isWs (c : Char) : Bool :=
  c = ' ' || c = '\t' || c = '\n' || c = '\r'

/-- Embedding of s.trim(): drop leading and trailing whitespace. -/
def jsTrim (s : String) : String :=
  ⟨((s.toList.dropWhile isWs).reverse.dropWhile isWs).reverse⟩

/-- Embedding of s.toLowerCase().trim() (ASCII-range lowercasing). -/
def lowerTrim (s : String) : String :=
  jsTrim ⟨s.toList.map Char.toLower⟩

/- ---------------- ACK correlator (handleMessageAck) ---------------- -/

/-- Whether the ack code hits one of the mapped cases of the switch in
handleMessageAck (the default case returns without touching the store). -/
def ackKnown (ack : Int) : Bool :=
  ack == 1 || ack == 2 || ack == 3

/-- The updateData object built by the switch in handleMessageAck,
applied to a message row: code 1 sets status SENT and stamps sentAt,
code 2 sets DELIVERED and stamps deliveredAt, code 3 sets READ and
stamps readAt; any other code leaves the row unchanged. -/
def applyAckData (now : Nat) (ack : Int) (m : Message) : Message :=
  if ack == 1 then { m with status := .SENT, sentAt := some now }
  else if ack == 2 then { m with status := .DELIVERED, deliveredAt := some now }
  else if ack == 3 then { m with status := .READ, readAt := some now }
  else m

/-- Embedding of handleMessageAck in webhook.ts acting on the Message
table: guard on a present, non-empty messageId; return on an unmapped
ack code; extract the transport id; findFirst on externalId; update
the found row by primary key, or do nothing when no row matches. -/
def handleMessageAck (now : Nat) (rawMessageId : Option String) (ack : Int)
    (msgs : List Message) : List Message :=
  match rawMessageId with
  | none => msgs
  | some raw =>
    if raw = "" then msgs
    else if ackKnown ack then
      let messageId := extractAckId raw
      match msgs.find? (fun m => m.externalId == some messageId) with
      | some m => msgs.map fun x => if x.id == m.id then applyAckData now ack x else x
      | none => msgs
    else msgs

/- ---------------- dispatcher (CronService.processUserMessages) ----- -/

/-- The prisma.message.update of the success path in
processUserMessages: set status SENT, stamp sentAt, store the
transport-returned external id (null when the transport returned
none). -/
def markSentData (now : Nat) (extId : Option String) (mId : String)
    (msgs : List Message) : List Message :=
  msgs.map fun x =>
    if x.id == mId then { x with status := .SENT, sentAt := some now, externalId := extId }
    else x

/-- The prisma.message.create of the monthly-recurrence branch:
a Scheduled clone one calendar month later, propagating the root of
the clone chain (originalMessageId if set, otherwise the own id). -/
def cloneForNextMonth (freshId : String) (m : Message) : Message :=
  { id := freshId
    content := m.content
    status := .SCHEDULED
    scheduledAt := m.scheduledAt.map addOneMonthJS
    sentAt := none
    deliveredAt := none
    readAt := none
    externalId := none
    recurrenceType := .MONTHLY
    originalMessageId := some (m.originalMessageId.getD m.id)
    isRecurringClone := true
    userId := m.userId
    contactId := m.contactId }

/-- Success path of processUserMessages for one message: mark it Sent,
then either create the monthly clone or delete the sent row. -/
def recurrenceStep (now : Nat) (extId : Option String) (freshId : String)
    (m : Message) (msgs : List Message) : List Message :=
  let updated := markSentData now extId m.id msgs
  if m.recurrenceType == .MONTHLY then updated ++ [cloneForNextMonth freshId m]
  else updated.filter fun x => !(x.id == m.id)

/-- Failure path of processUserMessages: re-read the row by id and
write FAILED only when the re-read status is still SCHEDULED. -/
def markFailedIfScheduled (mId : String) (msgs : List Message) : List Message :=
  match msgs.find? (fun x => x.id == mId) with
  | none => msgs
  | some cur =>
    if cur.status == .SCHEDULED then
      msgs.map fun x => if x.id == mId then { x with status := .FAILED } else x
    else msgs

/-- Result of the transport send attempt for a message id: success
with the transport-assigned id, a throw from sendTextMessage, or a
throw from the store update after a successful send. -/
inductive SendOutcome where
  | ok (extId : Option String)
  | sendFail
  | dbFail
  deriving DecidableEq, Repr

/-- Process-wide state threaded through the dispatch loop: the Message
table, the in-process processingMessages set (as a list used as a
set), and the ids for which the transport send was invoked. -/
structure ProcState where
  store : List Message
  processing : List String
  attempts : List String
  deriving DecidableEq, Repr

/-- One iteration of the for-loop in processUserMessages: skip when
the id is already in the dedup set; otherwise add it, attempt the
send (success path, transport error path, or store-update error path,
the two error paths going through the conditional FAILED write), and
remove the id from the set in the finally block. -/
def processOne (env : String → SendOutcome) (now : Nat) (freshId : String → String)
    (m : Message) (s : ProcState) : ProcState :=
  if s.processing.contains m.id then s
  else
    let s1 : ProcState := { s with processing := m.id :: s.processing }
    let s2 : ProcState :=
      match env m.id with
      | .ok extId =>
        { s1 with
          store := recurrenceStep now extId (freshId m.id) m s1.store
          attempts := s1.attempts ++ [m.id] }
      | .sendFail =>
        { s1 with
          store := markFailedIfScheduled m.id s1.store
          attempts := s1.attempts ++ [m.id] }
      | .dbFail =>
        { s1 with
          store := markFailedIfScheduled m.id s1.store
          attempts := s1.attempts ++ [m.id] }
    { s2 with processing := s2.processing.erase m.id }

/-- The whole for-loop of processUserMessages over one due batch. -/
def processBatch (env : String → SendOutcome) (now : Nat) (freshId : String → String)
    (batch : List Message) (s : ProcState) : ProcState :=
  batch.foldl (fun st m => processOne env now freshId m st) s

/- Interleaving model of two concurrent dispatch attempts for the same
message id. Each attempt runs the body of the for-loop of
processUserMessages; its atomic steps are separated by the await
points of the source: the dedup check plus Set.add happen together
(no await between them), the transport send is one awaited step, the
store update another, and the finally release a last one. -/

/-- Program counter of one dispatch attempt for a fixed message id. -/
inductive PC where
  | start
  | claimed
  | sentStep
  | updated
  | done
  | skipped
  deriving DecidableEq, Repr, Fintype

/-- Joint state of two dispatch attempts for the same message id:
the two program counters and whether the id is in the dedup set. -/
structure TwoState where
  a : PC
  b : PC
  locked : Bool
  deriving DecidableEq, Repr, Fintype

/-- One atomic step of a single attempt: the claim (check plus add),
the transport send, the store update, and the release; terminal
counters do not move. -/
def stepProc : PC → Bool → PC × Bool
  | .start, locked => if locked then (.skipped, locked) else (.claimed, true)
  | .claimed, locked => (.sentStep, locked)
  | .sentStep, locked => (.updated, locked)
  | .updated, _ => (.done, false)
  | pc, locked => (pc, locked)

/-- Attempt A takes one step. -/
def stepA (s : TwoState) : TwoState :=
  let r := stepProc s.a s.locked
  ⟨r.1, s.b, r.2⟩

/-- Attempt B takes one step. -/
def stepB (s : TwoState) : TwoState :=
  let r := stepProc s.b s.locked
  ⟨s.a, r.1, r.2⟩

/-- Run a schedule: true means attempt A steps, false means attempt B. -/
def runSched (sched : List Bool) (s : TwoState) : TwoState :=
  sched.foldl (fun st c => if c then stepA st else stepB st) s

/-- Initial state: both attempts before their claim, id not in the set. -/
def initTwo : TwoState := ⟨.start, .start, false⟩

/-- An attempt is in flight between its successful claim and its release. -/
def inflight : PC → Bool
  | .claimed => true
  | .sentStep => true
  | .updated => true
  | _ => false

/-- Invariant of the two-attempt system: never two attempts in flight,
the dedup set holds the id exactly while an attempt is in flight, and
a skipped attempt means the other attempt was in flight at claim time
and therefore proceeds to completion rather than skipping too. -/
def invTwo (s : TwoState) : Bool :=
  !(inflight s.a && inflight s.b) &&
  (s.locked == (inflight s.a || inflight s.b)) &&
  (!(s.a == .skipped) || (inflight s.b || s.b == .done)) &&
  (!(s.b == .skipped) || (inflight s.a || s.a == .done))

/- ---------------- confirmation matcher (handleMessage) ------------- -/

/-- The positiveResponses keyword list of handleMessage in webhook.ts. -/
def positiveResponses : List String :=
  ["sim", "yes", "confirmei", "vou ir", "confirmado", "ok", "claro",
   "com certeza", "presente", "vou", "estou"]

/-- The negativeResponses keyword list of handleMessage in webhook.ts. -/
def negativeResponses : List String :=
  ["não", "nao", "no", "não vou", "cancela", "cancelado", "não posso",
   "vou faltar", "não irei", "nao vou", "nao posso"]

/-- isPositive of handleMessage: some positive keyword occurs as a
whole word in the (lowercased, trimmed) response text. -/
def classifyPositive (t : String) : Bool :=
  positiveResponses.any fun w => wholeWordMatch w t

/-- isNegative of handleMessage: some negative keyword occurs as a
whole word in the (lowercased, trimmed) response text. -/
def classifyNegative (t : String) : Bool :=
  negativeResponses.any fun w => wholeWordMatch w t

/-- The prisma.confirmation.findMany of handleMessage: Pending rows,
filtered by userId when the session yielded one (userId or undefined
in the where clause), in query order. -/
def pendingForUser (userId : Option String) (confs : List Confirmation) :
    List Confirmation :=
  confs.filter fun c =>
    c.status == .PENDING &&
    (match userId with
     | some u => c.userId == u
     | none => true)

/-- The fallback prisma.confirmation.findMany of handleMessage,
issued when the user-filtered query is empty: all Pending rows, first
ten of the query order. -/
def allPendingTake10 (confs : List Confirmation) : List Confirmation :=
  (confs.filter fun c => c.status == .PENDING).take 10

/-- The strategy cascade of the matching loop of handleMessage,
applied to the normalized inbound number and one stored number
(digits-only): exact match, suffix match in either direction with at
least 8 digits, last-10 match, last-8 match, equality with the
leading 55 stripped, and last-10 with the leading 55 stripped. -/
def phoneStrategiesMatch (phoneNumber savedPhone : String) : Bool :=
  savedPhone == phoneNumber ||
  (strEndsWith phoneNumber savedPhone && 8 ≤ savedPhone.length) ||
  (strEndsWith savedPhone phoneNumber && 8 ≤ phoneNumber.length) ||
  takeRightS 10 savedPhone == takeRightS 10 phoneNumber ||
  takeRightS 8 savedPhone == takeRightS 8 phoneNumber ||
  stripDDI phoneNumber == stripDDI savedPhone ||
  (takeRightS 10 (stripDDI savedPhone) == takeRightS 10 (stripDDI phoneNumber) &&
   8 ≤ (takeRightS 10 (stripDDI phoneNumber)).length)

/-- The prisma.confirmation.update of handleMessage applied to one
row: set the classified verdict, record the response text and the
response instant. -/
def resolveConfirmation (isPos : Bool) (resp : Option String) (now : Nat)
    (c : Confirmation) : Confirmation :=
  { c with
    status := if isPos then .CONFIRMED else .DENIED
    response := resp
    respondedAt := some now }

/-- Embedding of the confirmation part of handleMessage in webhook.ts
acting on the Confirmation table. Inputs: the extracted session user
id, the sender identifier after the address-suffix strips (none or
empty aborts), the extracted message text, the fromMe flag, and the
Confirmation table in query order. Control flow follows the source:
ignore self-sent messages, normalize the number, lowercase and trim
the text, classify it, fetch the pending rows (falling back to the
unfiltered first ten when the user-filtered query is empty), resolve
the single pending row directly when there is exactly one, otherwise
run the strategy loop; the single-row branch records the lowercased
text while the strategy branch records the raw body. -/
def handleMessageConfirm (now : Nat) (sessionUserId : Option String)
    (rawPhone : Option String) (body : Option String) (fromMe : Bool)
    (confs : List Confirmation) : List Confirmation :=
  if fromMe then confs
  else
    match rawPhone with
    | none => confs
    | some p0 =>
      if p0 = "" then confs
      else
        let phoneNumber := normalizePhone p0
        let responseText := lowerTrim (body.getD "")
        let isPos := classifyPositive responseText
        let isNeg := classifyNegative responseText
        if isPos || isNeg then
          let firstQuery := pendingForUser sessionUserId confs
          let confirmations :=
            if firstQuery.length = 0 then allPendingTake10 confs else firstQuery
          if confirmations.length = 1 then
            match confirmations.head? with
            | some c =>
              confs.map fun x =>
                if x.id == c.id then resolveConfirmation isPos (some responseText) now x
                else x
            | none => confs
          else
            match confirmations.find?
                (fun c => phoneStrategiesMatch phoneNumber (stripNonDigits c.contactPhone)) with
            | some c =>
              confs.map fun x =>
                if x.id == c.id then resolveConfirmation isPos body now x
                else x
            | none => confs
        else confs

/- ---------------- webhook top level (handleWAHAWebhook) ------------ -/

/-- Embedding of extractUserIdFromSession in webhook.ts: a session
name of the form user underscore id yields the id, anything else
yields null. -/
def extractUserIdFromSession (sessionName : String) : Option String :=
  if strStartsWith sessionName "user_" then some ⟨sessionName.toList.drop 5⟩
  else none

/-- Whether the confirmation flow of handleMessage reaches a
prisma.confirmation.update call (the single-pending branch or a
strategy-loop hit), for the store fault model: this is the point
where a failing write throws out of handleMessage, which has no
internal try/catch around its store calls. -/
def confirmUpdateAttempted (sessionUserId : Option String)
    (rawPhone : Option String) (body : Option String) (fromMe : Bool)
    (confs : List Confirmation) : Bool :=
  if fromMe then false
  else
    match rawPhone with
    | none => false
    | some p0 =>
      if p0 = "" then false
      else
        let phoneNumber := normalizePhone p0
        let responseText := lowerTrim (body.getD "")
        let isPos := classifyPositive responseText
        let isNeg := classifyNegative responseText
        if isPos || isNeg then
          let firstQuery := pendingForUser sessionUserId confs
          let confirmations :=
            if firstQuery.length = 0 then allPendingTake10 confs else firstQuery
          if confirmations.length = 1 then confirmations.head?.isSome
          else
            (confirmations.find?
              (fun c => phoneStrategiesMatch phoneNumber (stripNonDigits c.contactPhone))).isSome
        else false

/-- Whether handleMessageAck reaches its prisma.message.update call,
for the store fault model. -/
def ackUpdateAttempted (rawMessageId : Option String) (ack : Int)
    (msgs : List Message) : Bool :=
  match rawMessageId with
  | none => false
  | some raw =>
    if raw = "" then false
    else if ackKnown ack then
      (msgs.find? (fun m => m.externalId == some (extractAckId raw))).isSome
    else false

/-- An untyped payload field value: the transport may deliver a
string or a number in a field the handler expects to be a string. -/
inductive JsValue where
  | str (s : String)
  | num (n : Int)
  deriving DecidableEq, Repr

/-- JavaScript falsiness of an optional payload field, as tested by
the guard if not rawMessageId in handleMessageAck: an absent field,
the empty string and the number zero are falsy. -/
def jsFalsy : Option JsValue → Bool
  | none => true
  | some (.str s) => s = ""
  | some (.num n) => n == 0

/-- The fields of a message.ack payload object that handleMessageAck
destructures: messageId may be absent or ill-typed (the payload is
opaque transport data), ack is the numeric code after parseInt. -/
structure AckPayload where
  messageId : Option JsValue
  ack : Int
  deriving DecidableEq, Repr

/-- The field of a session.status payload object that
handleSessionStatus destructures at its first line. -/
structure SessionPayload where
  status : String
  deriving DecidableEq, Repr

/-- The fields of an inbound message payload that the confirmation
flow of handleMessage consumes: the sender identifier after the
address-suffix strips, the extracted message text, and fromMe. -/
structure MessagePayload where
  rawPhone : Option String
  body : Option String
  fromMe : Bool
  deriving DecidableEq, Repr

/-- Webhook event shapes of processEvent in webhook.ts. Each handler
destructures or dereferences event.payload, so the payload object of
the three handled kinds is an Option: a parsed request body without a
payload object is representable and makes that access throw. -/
inductive WebhookEvent where
  | sessionStatus (session : String) (payload : Option SessionPayload)
  | message (session : String) (payload : Option MessagePayload)
  | messageAck (session : String) (payload : Option AckPayload)
  | engineEvent
  | other (name : String)

/-- Record store with a fault model: the tables plus flags saying
whether a Confirmation update write and a Message update write
succeed (a false flag makes the corresponding prisma call throw). -/
structure DB where
  messages : List Message
  confirmations : List Confirmation
  confUpdateOk : Bool
  msgUpdateOk : Bool

/-- handleMessage with the store fault model: dereferencing a missing
payload object throws at the first property access, and the prisma
calls are not wrapped in any try/catch, so a failing Confirmation
write also throws out of the handler. -/
def handleMessageE (now : Nat) (session : String) (payload : Option MessagePayload)
    (db : DB) : Except String DB :=
  match payload with
  | none => .error "cannot read properties of undefined"
  | some pl =>
    let u := extractUserIdFromSession session
    if confirmUpdateAttempted u pl.rawPhone pl.body pl.fromMe db.confirmations &&
        !db.confUpdateOk then
      .error "confirmation update failed"
    else
      .ok { db with
            confirmations :=
              handleMessageConfirm now u pl.rawPhone pl.body pl.fromMe db.confirmations }

/-- handleMessageAck with the fault model. The payload destructuring
and the split of rawMessageId precede the try block of the source, so
a missing payload object throws, a falsy messageId returns early, and
a truthy non-string messageId throws at the includes call; only from
the try block on (status mapping, lookup, Message store write) are
errors caught and logged, leaving the store untouched. -/
def handleMessageAckE (now : Nat) (payload : Option AckPayload) (db : DB) :
    Except String DB :=
  match payload with
  | none => .error "cannot destructure payload"
  | some pl =>
    if jsFalsy pl.messageId then .ok db
    else
      match pl.messageId with
      | some (.str raw) =>
        if ackUpdateAttempted (some raw) pl.ack db.messages && !db.msgUpdateOk then
          .ok db
        else
          .ok { db with messages := handleMessageAck now (some raw) pl.ack db.messages }
      | _ => .error "rawMessageId.includes is not a function"

/-- handleSessionStatus with the fault model: the first line
destructures event.payload, so a missing payload object throws; the
WhatsAppSession mirror refresh sits inside its own try/catch (and the
session table is outside the modeled store), so a present payload
completes normally. -/
def handleSessionStatusE (payload : Option SessionPayload) (db : DB) :
    Except String DB :=
  match payload with
  | none => .error "cannot destructure payload"
  | some _ => .ok db

/-- Embedding of the processEvent dispatch in webhook.ts for the
embedded event kinds; engine events and unrecognized kinds only log
the payload without dereferencing it and are dropped. -/
def processEventE (now : Nat) (ev : WebhookEvent) (db : DB) : Except String DB :=
  match ev with
  | .sessionStatus _ payload => handleSessionStatusE payload db
  | .message session payload => handleMessageE now session payload db
  | .messageAck _ payload => handleMessageAckE now payload db
  | .engineEvent => .ok db
  | .other _ => .ok db

/-- HTTP response of the webhook endpoint. -/
inductive WebhookResponse where
  | received200
  | error500 (msg : String)
  deriving DecidableEq, Repr

/-- Embedding of handleWAHAWebhook in webhook.ts: process the event
inside the top-level try, answer 200 with received true on normal
completion, and answer 500 with the error message from the catch
block when processing throws. -/
def handleWAHAWebhook (now : Nat) (ev : WebhookEvent) (db : DB) : WebhookResponse :=
  match processEventE now ev db with
  | .ok _ => .received200
  | .error e => .error500 e

/- ---------------- sample rows for concrete instances --------------- -/

/-- A Confirmation row with the given id, owner and stored phone. -/
def confOf (cid uid phone : String) : Confirmation :=
  { id := cid
    contactName := "Contact"
    contactPhone := phone
    status := .PENDING
    response := none
    respondedAt := none
    userId := uid }

/-- A Message row with the given id, status, external id, recurrence
and schedule. -/
def msgOf (mid : String) (st : MessageStatus) (ext : Option String)
    (rec : RecurrenceType) (sched : Option DateYMD) : Message :=
  { id := mid
    content := "Hello"
    status := st
    scheduledAt := sched
    sentAt := none
    deliveredAt := none
    readAt := none
    externalId := ext
    recurrenceType := rec
    originalMessageId := none
    isRecurringClone := false
    userId := "42"
    contactId := "ct1" }

/-- A due non-recurring scheduled message. -/
def sampleScheduledMsg : Message := msgOf "m1" .SCHEDULED none .NONE (some ⟨2026, 0, 15⟩)

/-- A due monthly-recurring scheduled message (2026-01-15). -/
def sampleMonthlyMsg : Message := msgOf "mm" .SCHEDULED none .MONTHLY (some ⟨2026, 0, 15⟩)

/-- A sent message holding the transport id ABC123. -/
def sampleSentMsg : Message := msgOf "m3" .SENT (some "ABC123") .NONE none

/-- A delivered message holding the transport id ABC. -/
def sampleDeliveredMsg : Message := msgOf "m4" .DELIVERED (some "ABC") .NONE none

/-- A pending confirmation owned by user 42. -/
def conf42 : Confirmation := confOf "c1" "42" "11987654321"

/-- A pending confirmation owned by user 2. -/
def confUser2 : Confirmation := confOf "c2" "2" "11988887777"

/- ================================================================
   Theorems
   ================================================================ -/

/-- C6: phone normalization strips every non-digit character and
prefixes the country code 55 exactly when the digits-only result has
at least 10 characters and does not already start with 55, and the
inputs (11) 98765-4321 and 5511987654321 normalize to identifiers
with equal last-10 digits, so they match under the last-10-digit
strategy of the Confirmation Matcher. -/
theorem C6_phone_normalization :
    (∀ s : String,
      normalizePhone s =
        if 10 ≤ (stripNonDigits s).length ∧ strStartsWith (stripNonDigits s) "55" = false
        then "55" ++ stripNonDigits s else stripNonDigits s) ∧
    (∀ s : String, ∀ c ∈ (normalizePhone s).toList, c.isDigit = true) ∧
    normalizePhone "(11) 98765-4321" = "5511987654321" ∧
    normalizePhone "5511987654321" = "5511987654321" ∧
    takeRightS 10 (normalizePhone "(11) 98765-4321") =
      takeRightS 10 (normalizePhone "5511987654321") ∧
    phoneStrategiesMatch (normalizePhone "(11) 98765-4321")
      (normalizePhone "5511987654321") = true := by
  refine ⟨?_, ?_, by decide, by decide, by decide, by decide⟩
  · intro s
    unfold normalizePhone addCountryCode
    split
    · next h =>
        simp only [Bool.and_eq_true, decide_eq_true_eq, Bool.not_eq_true'] at h
        rw [if_pos h]
    · next h =>
        simp only [Bool.and_eq_true, decide_eq_true_eq, Bool.not_eq_true'] at h
        rw [if_neg h]
  · intro s c hc
    unfold normalizePhone addCountryCode at hc
    split at hc
    · have hl : ("55" ++ stripNonDigits s).toList =
          '5' :: '5' :: (stripNonDigits s).toList := rfl
      rw [hl] at hc
      simp only [List.mem_cons] at hc
      rcases hc with h | h | h
      · rw [h]; decide
      · rw [h]; decide
      · exact List.of_mem_filter h
    · exact List.of_mem_filter hc

/-- C10: the recurrence expander uses JavaScript setMonth semantics:
when the scheduled day-of-month exists in the following month it is
preserved, and when it does not (January 31) the clone rolls past the
end of the shorter month into the month after (March 3, or March 2 in
a leap year) rather than clamping to the last day of the shorter
month. -/
theorem C10_set_month_semantics :
    (∀ d : DateYMD, d.day ≤ daysInMonth (nextYearOf d) (nextMonthOf d) →
      addOneMonthJS d = ⟨nextYearOf d, nextMonthOf d, d.day⟩) ∧
    addOneMonthJS ⟨2025, 0, 31⟩ = ⟨2025, 2, 3⟩ ∧
    addOneMonthJS ⟨2024, 0, 31⟩ = ⟨2024, 2, 2⟩ ∧
    addOneMonthJS ⟨2025, 0, 31⟩ ≠ ⟨2025, 1, 28⟩ := by
  refine ⟨?_, by decide, by decide, by decide⟩
  intro d h
  by_cases hm : d.month + 1 ≤ 11
  · simp only [addOneMonthJS, nextYearOf, nextMonthOf, normDay, hm, if_pos] at h ⊢
    rw [if_pos h]
  · simp only [addOneMonthJS, nextYearOf, nextMonthOf, normDay, hm, if_neg, if_false] at h ⊢
    rw [if_pos h]

/-- C10 witness: a message scheduled on 2026-01-15 recurs on
2026-02-15, by the day-preserving case of the theorem. -/
theorem C10_set_month_semantics_witness :
    addOneMonthJS ⟨2026, 0, 15⟩ = ⟨2026, 1, 15⟩ := by
  have h := C10_set_month_semantics.1 ⟨2026, 0, 15⟩ (by decide)
  rw [h]; decide

/-- The split of a character list is never empty. -/
theorem splitAtChar_ne_nil (sep : Char) (l : List Char) : splitAtChar sep l ≠ [] := by
  induction l with
  | nil => simp [splitAtChar]
  | cons c cs ih =>
    simp only [splitAtChar]
    split
    · simp
    · cases h : splitAtChar sep cs with
      | nil => simp
      | cons r rs => simp [h]

/-- The last segment of a nonempty list does not depend on the
default. -/
theorem getLastD_default_irrel {α : Type} (l : List α) (a b : α) (h : l ≠ []) :
    l.getLastD a = l.getLastD b := by
  cases l with
  | nil => exact absurd rfl h
  | cons x xs => rw [List.getLastD_cons, List.getLastD_cons]

/-- Splitting a list that does not contain the separator yields the
single segment holding the whole list. -/
theorem splitAtChar_no_sep (sep : Char) (l : List Char) (h : sep ∉ l) :
    splitAtChar sep l = [l] := by
  induction l with
  | nil => rfl
  | cons c cs ih =>
    simp only [List.mem_cons, not_or] at h
    simp only [splitAtChar]
    rw [if_neg fun hc => h.1 hc.symm, ih h.2]

/-- Splitting a list that contains the separator yields at least two
segments. -/
theorem splitAtChar_two_le (sep : Char) (l : List Char) (h : sep ∈ l) :
    2 ≤ (splitAtChar sep l).length := by
  induction l with
  | nil => cases h
  | cons c cs ih =>
    simp only [splitAtChar]
    by_cases hc : c = sep
    · rw [if_pos hc]
      have h1 : 0 < (splitAtChar sep cs).length :=
        List.length_pos.mpr (splitAtChar_ne_nil sep cs)
      simp only [List.length_cons]
      omega
    · rw [if_neg hc]
      have hmem : sep ∈ cs := by
        rcases List.mem_cons.mp h with h | h
        · exact absurd h.symm hc
        · exact h
      have h2 := ih hmem
      cases hsp : splitAtChar sep cs with
      | nil => exact absurd hsp (splitAtChar_ne_nil sep cs)
      | cons r rs =>
        rw [hsp] at h2
        simp only [List.length_cons] at h2 ⊢
        omega

/-- The last segment of the split of pre ++ sep ++ post, when post is
separator-free, is post: the segment after the final separator. -/
theorem splitAtChar_last (pre post : List Char) (h : '_' ∉ post) :
    (splitAtChar '_' (pre ++ '_' :: post)).getLastD [] = post := by
  induction pre with
  | nil =>
    simp only [List.nil_append, splitAtChar]
    rw [if_pos trivial, splitAtChar_no_sep _ _ h]
    rfl
  | cons c pre ih =>
    simp only [List.cons_append, splitAtChar]
    by_cases hc : c = '_'
    · rw [if_pos hc, List.getLastD_cons]
      rw [getLastD_default_irrel _ _ [] (splitAtChar_ne_nil _ _)]
      exact ih
    · rw [if_neg hc]
      have hmem : '_' ∈ pre ++ '_' :: post := by simp
      have h2 := splitAtChar_two_le '_' _ hmem
      cases hsp : splitAtChar '_' (pre ++ '_' :: post) with
      | nil => exact absurd hsp (splitAtChar_ne_nil _ _)
      | cons r rs =>
        have hrs : rs ≠ [] := by
          rw [hsp] at h2
          simp only [List.length_cons] at h2
          exact List.ne_nil_of_length_pos (by omega)
        have hbase := ih
        rw [hsp, List.getLastD_cons] at hbase
        rw [List.getLastD_cons]
        exact (getLastD_default_irrel rs (c :: r) r hrs).trans hbase

/-- C2: the ACK Correlator takes the transport id as the final
segment after the underscore separator when the raw id is composite
(the raw id itself otherwise), maps ack 1 to Sent stamping sentAt, 2
to Delivered stamping deliveredAt, 3 to Read stamping readAt, treats
any other code as a no-op, finds the target by exact equality with a
stored externalId, and modifies no record when no Message matches. -/
theorem C2_ack_correlator :
    (∀ pre post : List Char, '_' ∉ post →
      extractAckId ⟨pre ++ '_' :: post⟩ = ⟨post⟩) ∧
    (∀ raw : String, '_' ∉ raw.toList → extractAckId raw = raw) ∧
    (∀ (now : Nat) (raw : String) (msgs : List Message) (m : Message), raw ≠ "" →
      msgs.find? (fun x => x.externalId == some (extractAckId raw)) = some m →
      (handleMessageAck now (some raw) 1 msgs =
        msgs.map fun x => if x.id == m.id then
          { x with status := .SENT, sentAt := some now } else x) ∧
      (handleMessageAck now (some raw) 2 msgs =
        msgs.map fun x => if x.id == m.id then
          { x with status := .DELIVERED, deliveredAt := some now } else x) ∧
      (handleMessageAck now (some raw) 3 msgs =
        msgs.map fun x => if x.id == m.id then
          { x with status := .READ, readAt := some now } else x)) ∧
    (∀ (now : Nat) (raw : String) (ack : Int) (msgs : List Message),
      ack ≠ 1 → ack ≠ 2 → ack ≠ 3 →
      handleMessageAck now (some raw) ack msgs = msgs) ∧
    (∀ (now : Nat) (raw : String) (ack : Int) (msgs : List Message),
      msgs.find? (fun x => x.externalId == some (extractAckId raw)) = none →
      handleMessageAck now (some raw) ack msgs = msgs) := by
  refine ⟨?_, ?_, ?_, ?_, ?_⟩
  · intro pre post h
    unfold extractAckId
    rw [if_pos (by simp [String.toList])]
    have hl : (String.mk (pre ++ '_' :: post)).toList = pre ++ '_' :: post := rfl
    rw [hl, splitAtChar_last pre post h]
  · intro raw h
    unfold extractAckId
    rw [if_neg (by simpa using h)]
  · intro now raw msgs m hraw hfind
    refine ⟨?_, ?_, ?_⟩ <;>
    · simp only [handleMessageAck, if_neg hraw, ackKnown]
      norm_num
      rw [hfind]
      refine List.map_congr_left fun x _ => ?_
      by_cases hx : (x.id == m.id) = true <;> simp [hx, applyAckData]
  · intro now raw ack msgs h1 h2 h3
    simp only [handleMessageAck]
    split
    · rfl
    · rw [if_neg (by simp [ackKnown, h1, h2, h3])]
  · intro now raw ack msgs hfind
    simp only [handleMessageAck]
    split
    · rfl
    · split
      · rw [hfind]
      · rfl

/-- C2 witness: a composite ack id in the NOWEB shape resolves to its
final segment, and an ack 2 event on a store holding a matching Sent
message marks exactly that message Delivered with deliveredAt set. -/
theorem C2_ack_correlator_witness :
    extractAckId ⟨("true_5511999999999@c.us").toList ++ '_' :: ("ABC123").toList⟩ =
      "ABC123" ∧
    handleMessageAck 7 (some "true_5511999999999@c.us_ABC123") 2 [sampleSentMsg] =
      [{ sampleSentMsg with status := .DELIVERED, deliveredAt := some 7 }] := by
  constructor
  · exact C2_ack_correlator.1 ("true_5511999999999@c.us").toList ("ABC123").toList
      (by decide)
  · have h := (C2_ack_correlator.2.2.1 7 "true_5511999999999@c.us_ABC123"
      [sampleSentMsg] sampleSentMsg (by decide) (by decide)).2.1
    rw [h]
    decide

/-- C1 counterexample: an ack with code 1 arriving for a message that
is already Delivered rewrites its status back to Sent, strictly
decreasing the delivery order, instead of being a no-op. -/
theorem C1_counterexample :
    handleMessageAck 9 (some "ABC") 1 [sampleDeliveredMsg] =
      [{ sampleDeliveredMsg with status := .SENT, sentAt := some 9 }] ∧
    statusRank .SENT < statusRank sampleDeliveredMsg.status := by
  exact ⟨by decide, by decide⟩

/-- C1 amended: the Dispatcher itself only moves the status forward
(the success path leaves Sent on the dispatched row, and the failure
path writes Failed only when the re-read status is still Scheduled),
but the ACK Correlator enforces no monotonicity: it overwrites the
matched status with the target of the ack code whatever the current
status is, so an ack at or below the current status rewinds it. -/
theorem C1_amended :
    (∀ (now : Nat) (extId : Option String) (freshId : String) (m : Message) msgs,
      freshId ≠ m.id →
      ∀ x ∈ recurrenceStep now extId freshId m msgs, x.id = m.id → x.status = .SENT) ∧
    (∀ (mId : String) (msgs : List Message),
      markFailedIfScheduled mId msgs ≠ msgs →
      ∃ c, msgs.find? (fun x => x.id == mId) = some c ∧ c.status = .SCHEDULED) ∧
    (∀ (now : Nat) (m : Message),
      (applyAckData now 1 m).status = .SENT ∧
      (applyAckData now 2 m).status = .DELIVERED ∧
      (applyAckData now 3 m).status = .READ) := by
  refine ⟨?_, ?_, ?_⟩
  · intro now extId freshId m msgs hfresh x hx hid
    unfold recurrenceStep at hx
    by_cases hrec : (m.recurrenceType == RecurrenceType.MONTHLY) = true
    · rw [if_pos hrec] at hx
      rcases List.mem_append.mp hx with h | h
      · unfold markSentData at h
        rcases List.mem_map.mp h with ⟨y, _, hy⟩
        by_cases hyid : (y.id == m.id) = true
        · rw [if_pos hyid] at hy
          rw [← hy]
        · rw [if_neg hyid] at hy
          rw [← hy] at hid
          exact absurd (by simp [hid]) hyid
      · have hxc : x = cloneForNextMonth freshId m := by simpa using h
        rw [hxc] at hid
        exact absurd hid hfresh
    · rw [if_neg hrec] at hx
      have := List.of_mem_filter hx
      simp only [Bool.not_eq_true'] at this
      rw [hid] at this
      simp at this
  · intro mId msgs hne
    unfold markFailedIfScheduled at hne
    cases hfind : msgs.find? (fun x => x.id == mId) with
    | none => rw [hfind] at hne; exact absurd rfl hne
    | some cur =>
      by_cases hst : (cur.status == MessageStatus.SCHEDULED) = true
      · exact ⟨cur, rfl, by simpa using hst⟩
      · have hst2 : cur.status ≠ MessageStatus.SCHEDULED := by simpa using hst
        exact absurd (by simp [hfind, hst2]) hne
  · intro now m
    refine ⟨?_, ?_, ?_⟩ <;> simp [applyAckData]

/-- C1 amended witness: the failure-path guard applied to a store
where the row is still Scheduled: the write happens and the re-read
row is indeed Scheduled. -/
theorem C1_amended_witness :
    ∃ c, [sampleScheduledMsg].find? (fun x => x.id == "m1") = some c ∧
      c.status = .SCHEDULED := by
  exact C1_amended.2.1 "m1" [sampleScheduledMsg] (by decide)

/-- C6 witness: the digits-only conjunct of the normalization theorem
applied to a concrete input and character. -/
theorem C6_phone_normalization_witness :
    ('5' : Char).isDigit = true := by
  exact C6_phone_normalization.2.1 "(11) 98765-4321" '5' (by decide)

/-- C4: a successfully sent Monthly message yields exactly one new
row: the store keeps all old row ids in place and gains one appended
clone that is Scheduled one calendar month after the original
scheduledAt, carries the root of the clone chain (the sent row's
originalMessageId if set, else its id), is flagged isRecurringClone,
and shares content, contact, owner and recurrence; a successfully
sent None-recurrence message is instead deleted from the store. -/
theorem C4_recurrence_expansion :
    ∀ (now : Nat) (extId : Option String) (freshId : String) (m : Message)
      (msgs : List Message) (d : DateYMD),
      m.scheduledAt = some d →
      (m.recurrenceType = .MONTHLY →
        (recurrenceStep now extId freshId m msgs).length = msgs.length + 1 ∧
        (recurrenceStep now extId freshId m msgs).dropLast.map Message.id =
          msgs.map Message.id ∧
        ∃ c, (recurrenceStep now extId freshId m msgs).getLast? = some c ∧
          c.status = .SCHEDULED ∧
          c.scheduledAt = some (addOneMonthJS d) ∧
          c.originalMessageId = some (m.originalMessageId.getD m.id) ∧
          c.isRecurringClone = true ∧
          c.content = m.content ∧
          c.contactId = m.contactId ∧
          c.userId = m.userId ∧
          c.recurrenceType = m.recurrenceType) ∧
      (m.recurrenceType = .NONE →
        recurrenceStep now extId freshId m msgs =
          msgs.filter fun x => !(x.id == m.id)) := by
  intro now extId freshId m msgs d hsched
  constructor
  · intro hrec
    have hb : (m.recurrenceType == RecurrenceType.MONTHLY) = true := by
      rw [hrec]; rfl
    have hstep : recurrenceStep now extId freshId m msgs =
        markSentData now extId m.id msgs ++ [cloneForNextMonth freshId m] := by
      unfold recurrenceStep
      rw [if_pos hb]
    have hlen : (markSentData now extId m.id msgs).length = msgs.length := by
      unfold markSentData
      exact List.length_map msgs _
    refine ⟨?_, ?_, ?_⟩
    · rw [hstep, List.length_append, hlen]
      rfl
    · rw [hstep, List.dropLast_concat]
      unfold markSentData
      rw [List.map_map]
      refine List.map_congr_left fun a _ => ?_
      simp only [Function.comp]
      split <;> rfl
    · refine ⟨cloneForNextMonth freshId m, ?_, ?_, ?_, ?_, ?_, ?_, ?_, ?_, ?_⟩
      · rw [hstep]
        exact List.getLast?_concat _
      · rfl
      · rw [cloneForNextMonth, hsched]
        rfl
      · rfl
      · rfl
      · rfl
      · rfl
      · rfl
      · rw [hrec]; rfl
  · intro hrec
    have hb : (m.recurrenceType == RecurrenceType.MONTHLY) = false := by
      rw [hrec]; rfl
    unfold recurrenceStep
    rw [if_neg (by simp [hb])]
    unfold markSentData
    rw [List.filter_map]
    have hpred : ∀ x ∈ msgs,
        ((fun x : Message => !(x.id == m.id)) ∘
          (fun x : Message => if x.id == m.id then
            { x with status := .SENT, sentAt := some now, externalId := extId }
          else x)) x = (fun x : Message => !(x.id == m.id)) x := by
      intro x _
      simp only [Function.comp]
      split <;> rfl
    rw [List.filter_congr hpred]
    have hid : ∀ a ∈ List.filter (fun x : Message => !(x.id == m.id)) msgs,
        (fun x : Message => if x.id == m.id then
            { x with status := .SENT, sentAt := some now, externalId := extId }
          else x) a = id a := by
      intro a ha
      have hne := List.of_mem_filter ha
      simp only [Bool.not_eq_true'] at hne
      simp [hne]
    rw [List.map_congr_left hid, List.map_id]

/-- C4 witness: the monthly case applied to a concrete one-row store
with scheduledAt 2026-01-15: one row is added and the appended clone
is Scheduled for 2026-02-15. -/
theorem C4_recurrence_expansion_witness :
    (recurrenceStep 3 (some "EXT") "mm-clone" sampleMonthlyMsg [sampleMonthlyMsg]).length
      = 1 + 1 ∧
    ∃ c, (recurrenceStep 3 (some "EXT") "mm-clone" sampleMonthlyMsg
      [sampleMonthlyMsg]).getLast? = some c ∧
      c.status = .SCHEDULED ∧ c.scheduledAt = some ⟨2026, 1, 15⟩ := by
  have h := (C4_recurrence_expansion 3 (some "EXT") "mm-clone" sampleMonthlyMsg
    [sampleMonthlyMsg] ⟨2026, 0, 15⟩ rfl).1 rfl
  obtain ⟨hlen, _, c, hlast, hstatus, hsched, _⟩ := h
  refine ⟨hlen, c, hlast, hstatus, ?_⟩
  rw [hsched]
  decide

/-- The dedup set is restored by every call of the loop body: a skip
leaves it alone, and a claimed id is erased again by the finally
block on each of the three exit paths. -/
theorem processOne_processing (env : String → SendOutcome) (now : Nat)
    (freshId : String → String) (m : Message) (s : ProcState) :
    (processOne env now freshId m s).processing = s.processing := by
  unfold processOne
  split
  · rfl
  · cases env m.id <;> simp [List.erase_cons_head]

/-- The attempt log only grows. -/
theorem processOne_attempts_mono (env : String → SendOutcome) (now : Nat)
    (freshId : String → String) (m : Message) (s : ProcState) (x : String)
    (hx : x ∈ s.attempts) :
    x ∈ (processOne env now freshId m s).attempts := by
  unfold processOne
  split
  · exact hx
  · cases env m.id <;> exact List.mem_append_left _ hx

/-- A message whose id is not in the dedup set gets its transport
send attempted, whatever the outcome of the attempt is. -/
theorem processOne_attempt_self (env : String → SendOutcome) (now : Nat)
    (freshId : String → String) (m : Message) (s : ProcState)
    (h : s.processing.contains m.id = false) :
    m.id ∈ (processOne env now freshId m s).attempts := by
  unfold processOne
  rw [if_neg (by simpa using h)]
  cases env m.id <;> exact List.mem_append_right _ (by simp)

/-- Attempt-log monotonicity through a whole batch. -/
theorem processBatch_attempts_mono (env : String → SendOutcome) (now : Nat)
    (freshId : String → String) (batch : List Message) :
    ∀ (s : ProcState) (x : String), x ∈ s.attempts →
      x ∈ (processBatch env now freshId batch s).attempts := by
  induction batch with
  | nil => intro s x hx; exact hx
  | cons b bs ih =>
    intro s x hx
    simp only [processBatch, List.foldl_cons] at *
    exact ih _ x (processOne_attempts_mono env now freshId b s x hx)

/-- Every message of a batch started with an empty dedup set gets its
send attempted, regardless of earlier failures in the batch. -/
theorem processBatch_attempts_all (env : String → SendOutcome) (now : Nat)
    (freshId : String → String) :
    ∀ (batch : List Message) (s : ProcState), s.processing = [] →
      ∀ m ∈ batch, m.id ∈ (processBatch env now freshId batch s).attempts := by
  intro batch
  induction batch with
  | nil => intro s _ m hm; cases hm
  | cons b bs ih =>
    intro s hs m hm
    simp only [processBatch, List.foldl_cons]
    rcases List.mem_cons.mp hm with h | h
    · subst h
      exact processBatch_attempts_mono env now freshId bs _ _
        (processOne_attempt_self env now freshId m s (by rw [hs]; rfl))
    · exact ih _ (by rw [processOne_processing, hs]) m h

/-- C7: the failure path re-reads the current status and leaves a row
whose status a concurrent update advanced to Sent, Delivered or Read
unchanged; whenever the Failed write does happen the re-read status
was still Scheduled, hence pre-Sent; and a failure is handled
per-message, so every message of a batch is attempted no matter which
earlier sends or store writes fail. -/
theorem C7_failure_isolation :
    (∀ (mId : String) (msgs : List Message) (c : Message),
      msgs.find? (fun x => x.id == mId) = some c →
      (c.status = .SENT ∨ c.status = .DELIVERED ∨ c.status = .READ) →
      markFailedIfScheduled mId msgs = msgs) ∧
    (∀ (mId : String) (msgs : List Message),
      markFailedIfScheduled mId msgs ≠ msgs →
      ∃ c, msgs.find? (fun x => x.id == mId) = some c ∧ c.status = .SCHEDULED) ∧
    (∀ (env : String → SendOutcome) (now : Nat) (freshId : String → String)
      (batch : List Message) (store : List Message),
      ∀ m ∈ batch,
        m.id ∈ (processBatch env now freshId batch ⟨store, [], []⟩).attempts) := by
  refine ⟨?_, ?_, ?_⟩
  · intro mId msgs c hfind hst
    have hne2 : c.status ≠ MessageStatus.SCHEDULED := by
      rcases hst with h | h | h <;> rw [h] <;> intro hh <;> cases hh
    simp [markFailedIfScheduled, hfind, hne2]
  · intro mId msgs hne
    unfold markFailedIfScheduled at hne
    cases hfind : msgs.find? (fun x => x.id == mId) with
    | none => exact absurd (by simp [hfind]) hne
    | some cur =>
      by_cases hst : (cur.status == MessageStatus.SCHEDULED) = true
      · exact ⟨cur, rfl, by simpa using hst⟩
      · have hst2 : cur.status ≠ MessageStatus.SCHEDULED := by simpa using hst
        exact absurd (by simp [hfind, hst2]) hne
  · intro env now freshId batch store m hm
    exact processBatch_attempts_all env now freshId batch ⟨store, [], []⟩ rfl m hm

/-- C7 witness: in a two-message batch whose first send throws, the
second message is still attempted. -/
theorem C7_failure_isolation_witness :
    sampleMonthlyMsg.id ∈
      (processBatch (fun _ => .sendFail) 0 (fun s => s ++ "-c")
        [sampleScheduledMsg, sampleMonthlyMsg]
        ⟨[sampleScheduledMsg, sampleMonthlyMsg], [], []⟩).attempts := by
  exact C7_failure_isolation.2.2 (fun _ => .sendFail) 0 (fun s => s ++ "-c")
    [sampleScheduledMsg, sampleMonthlyMsg] [sampleScheduledMsg, sampleMonthlyMsg]
    sampleMonthlyMsg (by decide)

/-- Preservation of the two-attempt invariant by either attempt
taking a step. -/
theorem invTwo_step : ∀ s : TwoState, invTwo s = true →
    invTwo (stepA s) = true ∧ invTwo (stepB s) = true := by decide

/-- The invariant holds along every schedule from the initial state. -/
theorem invTwo_run : ∀ (sched : List Bool) (s : TwoState), invTwo s = true →
    invTwo (runSched sched s) = true := by
  intro sched
  induction sched with
  | nil => intro s h; exact h
  | cons c cs ih =>
    intro s h
    simp only [runSched, List.foldl_cons]
    cases c
    · exact ih _ (invTwo_step s h).2
    · exact ih _ (invTwo_step s h).1

/-- C3: the dispatcher skips a message whose id is already claimed,
with no send and no state change; the claimed id is back out of the
set after every exit path of the attempt; and in the interleaving
model of two concurrent attempts for the same id, never are two
attempts in flight at once, a claim made while the other attempt is
in flight is refused, and the two attempts never both skip — so an
overlapping pair produces exactly one transport send. -/
theorem C3_dedup_guard :
    (∀ (env : String → SendOutcome) (now : Nat) (freshId : String → String)
      (m : Message) (s : ProcState),
      s.processing.contains m.id = true → processOne env now freshId m s = s) ∧
    (∀ (env : String → SendOutcome) (now : Nat) (freshId : String → String)
      (m : Message) (s : ProcState),
      (processOne env now freshId m s).processing = s.processing) ∧
    (∀ sched : List Bool,
      ¬(inflight (runSched sched initTwo).a = true ∧
        inflight (runSched sched initTwo).b = true)) ∧
    (∀ sched : List Bool, (runSched sched initTwo).a = .start →
      inflight (runSched sched initTwo).b = true →
      (stepA (runSched sched initTwo)).a = .skipped) ∧
    (∀ sched : List Bool,
      ¬((runSched sched initTwo).a = .skipped ∧
        (runSched sched initTwo).b = .skipped)) := by
  have hrun : ∀ sched : List Bool, invTwo (runSched sched initTwo) = true :=
    fun sched => invTwo_run sched initTwo (by decide)
  refine ⟨?_, ?_, ?_, ?_, ?_⟩
  · intro env now freshId m s h
    unfold processOne
    rw [if_pos h]
  · intro env now freshId m s
    exact processOne_processing env now freshId m s
  · intro sched
    exact (by decide :
      ∀ t : TwoState, invTwo t = true →
        ¬(inflight t.a = true ∧ inflight t.b = true)) _ (hrun sched)
  · intro sched
    exact (by decide :
      ∀ t : TwoState, invTwo t = true → t.a = .start → inflight t.b = true →
        (stepA t).a = .skipped) _ (hrun sched)
  · intro sched
    exact (by decide :
      ∀ t : TwoState, invTwo t = true →
        ¬(t.a = .skipped ∧ t.b = .skipped)) _ (hrun sched)

/-- C3 witness: a message already claimed is skipped untouched, and
on the schedule where attempt B claims first, a claim by attempt A is
refused. -/
theorem C3_dedup_guard_witness :
    processOne (fun _ => .ok none) 0 (fun s => s) sampleScheduledMsg
      ⟨[], [sampleScheduledMsg.id], []⟩ = ⟨[], [sampleScheduledMsg.id], []⟩ ∧
    (stepA (runSched [false] initTwo)).a = .skipped := by
  constructor
  · exact C3_dedup_guard.1 (fun _ => .ok none) 0 (fun s => s) sampleScheduledMsg
      ⟨[], [sampleScheduledMsg.id], []⟩ (by decide)
  · exact C3_dedup_guard.2.2.2.1 [false] (by decide) (by decide)

/-- C5: an inbound message whose lowercased text matches no keyword
set causes no state change; and when exactly one Pending Confirmation
exists for the session owner, a classified message resolves it
unconditionally, whatever the sender number is: to Confirmed when the
affirmative set matches (affirmative priority, since this branch
needs no check of the negative set) and to Denied when only the
negative set matches, recording the response text and respondedAt. -/
theorem C5_single_pending_resolution :
    ∀ (now : Nat) (u p : String) (body : Option String) (confs : List Confirmation)
      (c : Confirmation),
      (classifyPositive (lowerTrim (body.getD "")) = false →
       classifyNegative (lowerTrim (body.getD "")) = false →
       handleMessageConfirm now (some u) (some p) body false confs = confs) ∧
      (p ≠ "" →
       pendingForUser (some u) confs = [c] →
       (classifyPositive (lowerTrim (body.getD "")) = true →
        handleMessageConfirm now (some u) (some p) body false confs =
          confs.map fun x => if x.id == c.id then
            { x with status := .CONFIRMED,
                     response := some (lowerTrim (body.getD "")),
                     respondedAt := some now } else x) ∧
       (classifyPositive (lowerTrim (body.getD "")) = false →
        classifyNegative (lowerTrim (body.getD "")) = true →
        handleMessageConfirm now (some u) (some p) body false confs =
          confs.map fun x => if x.id == c.id then
            { x with status := .DENIED,
                     response := some (lowerTrim (body.getD "")),
                     respondedAt := some now } else x)) := by
  intro now u p body confs c
  refine ⟨?_, fun hp hpend => ⟨?_, ?_⟩⟩
  · intro hpos hneg
    by_cases hp : p = ""
    · simp [handleMessageConfirm, hp]
    · simp [handleMessageConfirm, hp, hpos, hneg]
  · intro hpos
    simp [handleMessageConfirm, hp, hpos, hpend, resolveConfirmation]
  · intro hpos hneg
    simp [handleMessageConfirm, hp, hpos, hneg, hpend, resolveConfirmation]

/-- C5 witness: the scenario of an inbound reply sim with exactly one
pending confirmation for user 42: it becomes Confirmed with response
sim and respondedAt set. -/
theorem C5_single_pending_resolution_witness :
    handleMessageConfirm 6 (some "42") (some "5511999999999") (some "sim") false
      [conf42] =
      [{ conf42 with
          status := .CONFIRMED
          response := some "sim"
          respondedAt := some 6 }] := by
  have h := ((C5_single_pending_resolution 6 "42" "5511999999999" (some "sim")
    [conf42] conf42).2 (by decide) (by decide)).1 (by decide)
  rw [h]
  decide

/-- Shape of a handleMessage run on the Confirmation table: either
nothing changes, or exactly the rows sharing the id of one row of the
queried pending list (the user-filtered query, or the unfiltered
first ten when that query is empty) are resolved. -/
theorem handleMessageConfirm_mutation_target :
    ∀ (now : Nat) (uid : Option String) (p body : Option String) (fromMe : Bool)
      (confs : List Confirmation),
      handleMessageConfirm now uid p body fromMe confs = confs ∨
      ∃ c, c ∈ (if (pendingForUser uid confs).length = 0
                then allPendingTake10 confs else pendingForUser uid confs) ∧
        ∃ resp, handleMessageConfirm now uid p body fromMe confs =
          confs.map fun x => if x.id == c.id then
            resolveConfirmation (classifyPositive (lowerTrim (body.getD "")))
              resp now x
          else x := by
  intro now uid p body fromMe confs
  simp only [handleMessageConfirm]
  split
  · exact .inl rfl
  · split
    · exact .inl rfl
    · split
      · exact .inl rfl
      · split
        · split
          case isTrue hlen =>
            split
            · split
              · next c hc =>
                  exact .inr ⟨c, List.mem_of_mem_head? (Option.mem_def.mpr hc),
                    some (lowerTrim (body.getD "")), rfl⟩
              · exact .inl rfl
            · split
              · next c hc =>
                  exact .inr ⟨c, List.mem_of_find?_eq_some hc, body, rfl⟩
              · exact .inl rfl
          case isFalse hlen =>
            split
            · split
              · next c hc =>
                  exact .inr ⟨c, List.mem_of_mem_head? (Option.mem_def.mpr hc),
                    some (lowerTrim (body.getD "")), rfl⟩
              · exact .inl rfl
            · split
              · next c hc =>
                  exact .inr ⟨c, List.mem_of_find?_eq_some hc, body, rfl⟩
              · exact .inl rfl
        · exact .inl rfl

/-- C9 counterexample: a classified inbound reply attributed to user
1 resolves the single pending Confirmation of user 2, because the
user-filtered query is empty and the fallback query drops the userId
filter: a mutation while processing an event of owner 1 touches a
record owned by user 2. -/
theorem C9_counterexample :
    handleMessageConfirm 0 (some "1") (some "5511999999999") (some "sim") false
      [confUser2] =
      [{ confUser2 with
          status := .CONFIRMED
          response := some "sim"
          respondedAt := some 0 }] ∧
    confUser2.userId ≠ "1" := ⟨by decide, by decide⟩

/-- C9 amended: while the session owner has at least one Pending
Confirmation, every row the Confirmation Matcher changes is owned by
the session owner; when the owner has none, the matcher falls back to
the pending confirmations of all users (first ten) and can resolve a
record of a different owner. -/
theorem C9_amended :
    ∀ (now : Nat) (u : String) (p body : Option String) (fromMe : Bool)
      (confs : List Confirmation),
      (confs.map Confirmation.id).Nodup →
      pendingForUser (some u) confs ≠ [] →
      (handleMessageConfirm now (some u) p body fromMe confs).length = confs.length ∧
      ∀ (i : Nat) (h1 : i < (handleMessageConfirm now (some u) p body fromMe confs).length)
        (h2 : i < confs.length),
        (handleMessageConfirm now (some u) p body fromMe confs).get ⟨i, h1⟩ ≠
          confs.get ⟨i, h2⟩ →
        (confs.get ⟨i, h2⟩).userId = u := by
  intro now u p body fromMe confs hnodup hpend
  rcases handleMessageConfirm_mutation_target now (some u) p body fromMe confs with
    h | ⟨c, hc, resp, h⟩
  · rw [h]
    exact ⟨rfl, fun i h1 h2 hne => absurd rfl hne⟩
  · have hlen0 : ¬(pendingForUser (some u) confs).length = 0 := by
      simpa [List.length_eq_zero] using hpend
    rw [if_neg hlen0] at hc
    have hcu : c.userId = u := by
      have h2 := List.of_mem_filter hc
      simp only [Bool.and_eq_true, beq_iff_eq] at h2
      exact h2.2
    have hcmem : c ∈ confs := List.mem_of_mem_filter hc
    rw [h]
    refine ⟨List.length_map _ _, ?_⟩
    intro i h1 h2 hne
    have hget : (confs.map fun x => if x.id == c.id then
        resolveConfirmation (classifyPositive (lowerTrim (body.getD ""))) resp now x
        else x).get ⟨i, h1⟩ =
        if (confs.get ⟨i, h2⟩).id == c.id then
          resolveConfirmation (classifyPositive (lowerTrim (body.getD ""))) resp now
            (confs.get ⟨i, h2⟩)
        else confs.get ⟨i, h2⟩ := by
      rw [List.get_eq_getElem, List.get_eq_getElem]
      exact List.getElem_map _
    by_cases hid : ((confs.get ⟨i, h2⟩).id == c.id) = true
    · have heq : confs.get ⟨i, h2⟩ = c :=
        List.inj_on_of_nodup_map hnodup (List.get_mem confs i h2) hcmem
          (by simpa using hid)
      rw [heq]
      exact hcu
    · exfalso
      apply hne
      rw [hget, if_neg hid]

/-- C9 amended witness: the per-index conclusion applied to a store
whose single pending row belongs to the session owner. -/
theorem C9_amended_witness :
    (handleMessageConfirm 1 (some "42") (some "5511999999999") (some "sim") false
      [conf42]).length = [conf42].length := by
  exact (C9_amended 1 "42" (some "5511999999999") (some "sim") false [conf42]
    (by decide) (by decide)).1

/-- C8 counterexample: a parsed inbound-message event whose
Confirmation store write throws escapes the handler, reaches the
top-level catch, and the endpoint answers 500 with the error message
instead of 200 with received true. -/
theorem C8_counterexample :
    handleWAHAWebhook 0
      (.message "user_42" (some ⟨some "5511999999999", some "sim", false⟩))
      ⟨[], [conf42], false, true⟩ = .error500 "confirmation update failed" ∧
    handleWAHAWebhook 0
      (.message "user_42" (some ⟨some "5511999999999", some "sim", false⟩))
      ⟨[], [conf42], false, true⟩ ≠ .received200 := ⟨by decide, by decide⟩

/-- C8 amended: the endpoint answers 200 with received true exactly
when event processing completes without an uncaught error, and 500
with the error message otherwise. Errors inside the try block of the
ack handler are swallowed, so an ack event whose payload carries a
string messageId is answered 200 even when the Message store write
throws, and engine and unrecognized events always get 200; but a
message.ack or session.status event without a payload object throws
at the destructuring before any try/catch, an ack payload whose
messageId is a truthy non-string throws at the includes call, and a
Confirmation store write failing during inbound-message handling
throws out of that handler — each answered 500 by the top-level
catch. -/
theorem C8_amended :
    (∀ (now : Nat) (ev : WebhookEvent) (db : DB),
      (∃ db2, processEventE now ev db = .ok db2) →
      handleWAHAWebhook now ev db = .received200) ∧
    (∀ (now : Nat) (ev : WebhookEvent) (db : DB) (e : String),
      processEventE now ev db = .error e →
      handleWAHAWebhook now ev db = .error500 e) ∧
    (∀ (now : Nat) (session raw : String) (ack : Int) (db : DB),
      handleWAHAWebhook now
        (.messageAck session (some ⟨some (.str raw), ack⟩)) db = .received200) ∧
    (∀ (now : Nat) (session : String) (db : DB),
      handleWAHAWebhook now (.messageAck session none) db =
        .error500 "cannot destructure payload") ∧
    (∀ (now : Nat) (session : String) (n : Int) (ack : Int) (db : DB), n ≠ 0 →
      handleWAHAWebhook now (.messageAck session (some ⟨some (.num n), ack⟩)) db =
        .error500 "rawMessageId.includes is not a function") ∧
    (∀ (now : Nat) (session : String) (db : DB),
      handleWAHAWebhook now (.sessionStatus session none) db =
        .error500 "cannot destructure payload") ∧
    (∀ (now : Nat) (db : DB),
      handleWAHAWebhook now .engineEvent db = .received200) ∧
    (∀ (now : Nat) (name : String) (db : DB),
      handleWAHAWebhook now (.other name) db = .received200) := by
  refine ⟨?_, ?_, ?_, ?_, ?_, ?_, ?_, ?_⟩
  · rintro now ev db ⟨db2, h⟩
    unfold handleWAHAWebhook
    rw [h]
  · intro now ev db e h
    unfold handleWAHAWebhook
    rw [h]
  · intro now session raw ack db
    have h : ∃ db2,
        processEventE now (.messageAck session (some ⟨some (.str raw), ack⟩)) db =
          .ok db2 := by
      simp only [processEventE, handleMessageAckE]
      split
      · exact ⟨db, rfl⟩
      · split
        · exact ⟨db, rfl⟩
        · exact ⟨_, rfl⟩
    obtain ⟨db2, h⟩ := h
    unfold handleWAHAWebhook
    rw [h]
  · intro now session db
    rfl
  · intro now session n ack db hn
    have h : processEventE now (.messageAck session (some ⟨some (.num n), ack⟩)) db =
        .error "rawMessageId.includes is not a function" := by
      simp only [processEventE, handleMessageAckE, jsFalsy]
      rw [if_neg (by simp [hn])]
    unfold handleWAHAWebhook
    rw [h]
  · intro now session db
    rfl
  · intro now db
    rfl
  · intro now name db
    rfl

/-- C8 amended witness: an ack event whose payload carries a string
messageId is acknowledged with 200 although the Message store write
throws (the store holds a matching row and msgUpdateOk is false). -/
theorem C8_amended_witness :
    handleWAHAWebhook 7
      (.messageAck "user_42" (some ⟨some (.str "true_551199@c.us_ABC123"), 2⟩))
      ⟨[sampleSentMsg], [], true, false⟩ = .received200 := by
  exact C8_amended.2.2.1 7 "user_42" "true_551199@c.us_ABC123" 2
    ⟨[sampleSentMsg], [], true, false⟩

end Zap
